import Mathlib

/-!
Verification of the promise4g promise library (settlement primitive and
combinators) against its natural-language specification.

The Go code is shallowly embedded: the settlement state of a
`Promise[T]` (its `value` and `err` atomic cells, the `done` channel and
the `sync.Once` gate) becomes an explicit record `PState T`; concurrent
calls to `resolve`/`reject` — serialized in Go by the `once` mutex — become
an arbitrary list of settlement operations folded over the state; the
`select` in `Await` becomes a function of the state, the cancellation
signal's readiness, and a tie-breaking pick; the combinator task bodies
(`AllWithPool`, `Race`, `ThenWithPool`, `CatchWithPool`, `Timeout`) become
folds over the observations their internal waiters make, with the
completion order an explicit parameter.
-/

namespace Promise4g

/-- The concrete Go `error` values that arise in this library: user errors
built with `errors.New`, errors synthesized by `fmt.Errorf("%v", r)` in the
panic guard, and the two context errors. -/
inductive GoError where
  | errNew (msg : String)
  | fmtError (msg : String)
  | ctxCanceled
  | ctxDeadlineExceeded
deriving DecidableEq, Repr

/-- Settlement state of a `Promise[T]`: `value`/`err` model the two
`atomic.Value` cells (`none` = never stored), `done` models whether the
`done` channel has been closed, and `onceConsumed` models whether the
`sync.Once` gate has been used up (which can happen without `done`
closing, when the function passed to `once.Do` panics mid-way). -/
structure PState (T : Type) where
  value : Option T
  err : Option GoError
  done : Bool
  onceConsumed : Bool
deriving DecidableEq, Repr

/-- The state of a freshly constructed promise: nothing stored, `done`
open, `once` unused. -/
def PState.initial (T : Type) : PState T := ⟨none, none, false, false⟩

/-- `p.resolve(value)`: inside `once.Do`, store the value and close `done`.
A no-op if the once gate was already consumed. -/
def resolve {T : Type} (p : PState T) (v : T) : PState T :=
  if p.onceConsumed then p
  else { p with value := some v, done := true, onceConsumed := true }

/-- `p.reject(err)`: inside `once.Do`, store the error and close `done`.
The error argument is an interface value and may be nil (`none`):
`atomic.Value.Store(nil)` panics, so in that case the once gate is
consumed (Go's `sync.Once` marks itself done even when the function
panics) but `done` is never closed. Returns the new state and whether the
store panicked. -/
def reject {T : Type} (p : PState T) (e : Option GoError) : PState T × Bool :=
  if p.onceConsumed then (p, false)
  else
    match e with
    | none => ({ p with onceConsumed := true }, true)
    | some e0 => ({ p with err := some e0, done := true, onceConsumed := true }, false)

/-- A value recovered by the deferred `recover()` in `handlePanic`: either
a value implementing the `error` interface, or any other value, carried
here by its `fmt` textual representation. -/
inductive PanicValue where
  | asError (e : GoError)
  | other (repr : String)
deriving DecidableEq, Repr

/-- The `switch v := r.(type)` in `handlePanic`: a structured error is
used verbatim, anything else goes through `fmt.Errorf("%v", v)`. -/
def panicToError : PanicValue → GoError
  | .asError e => e
  | .other s => .fmtError s

/-- `p.handlePanic()`: the deferred guard around every task. `r = none`
models `recover()` returning nil (no panic); otherwise the recovered
value is converted to an error and the promise is rejected with it
(a non-nil error, so the inner store cannot itself panic). -/
def handlePanic {T : Type} (p : PState T) (r : Option PanicValue) : PState T :=
  match r with
  | none => p
  | some v => (reject p (some (panicToError v))).1

/-- What one call to `Await` returns: `ret v e` is the Go pair
`(value, error)` (with `v` the zero value when `e` is non-nil), `blocked`
means neither `select` arm is ready so the call does not return, and
`fault` is the nil type-assertion panic `p.value.Load().(T)` would raise
in a state where `done` is closed but neither cell was stored. -/
inductive AwaitRes (T : Type) where
  | ret (v : T) (e : Option GoError)
  | blocked
  | fault
deriving DecidableEq, Repr

/-- `p.Await(ctx)`: the two-arm `select`. `ctxReady` is whether
`ctx.Done()` is ready, `ctxErr` is `ctx.Err()` at that point, and
`pickCtx` resolves the nondeterministic choice Go makes when both arms
are ready. When the `done` arm is taken, a stored error is returned with
the zero value, else the stored value with a nil error. -/
def await {T : Type} (p : PState T) (zero : T) (ctxReady : Bool) (ctxErr : GoError)
    (pickCtx : Bool) : AwaitRes T :=
  if ctxReady && (pickCtx || !p.done) then .ret zero (some ctxErr)
  else if p.done then
    match p.err with
    | some e => .ret zero (some e)
    | none =>
      match p.value with
      | some v => .ret v none
      | none => .fault
  else .blocked

/-- The settled result a waiter reads once `done` is closed: the stored
error if any, else the stored value. `none` when the promise is not
settled (or in the impossible done-but-empty state). -/
def readResult {T : Type} (p : PState T) : Option (Except GoError T) :=
  if p.done then
    match p.err with
    | some e => some (.error e)
    | none => p.value.map .ok
  else none

/-- One settlement call made by a task: `resolve(v)` or `reject(e)` with a
non-nil error (nil rejection is modelled separately, see `catchRun`). -/
inductive SettleOp (T : Type) where
  | res (v : T)
  | rej (e : GoError)
deriving DecidableEq, Repr

/-- The result a settlement call attempts to install. -/
def interp {T : Type} : SettleOp T → Except GoError T
  | .res v => .ok v
  | .rej e => .error e

/-- Apply one settlement call to the promise state. -/
def applyOp {T : Type} (p : PState T) : SettleOp T → PState T
  | .res v => resolve p v
  | .rej e => (reject p (some e)).1

/-- Apply a whole interleaving of settlement calls, in the order the
`sync.Once` mutex serializes them. -/
def applyOps {T : Type} (p : PState T) (ops : List (SettleOp T)) : PState T :=
  ops.foldl applyOp p

/-- Once the once gate is consumed, every further settlement call is a
no-op on the state. -/
theorem applyOp_of_onceConsumed {T : Type} (p : PState T) (h : p.onceConsumed = true)
    (op : SettleOp T) : applyOp p op = p := by
  cases op <;> simp [applyOp, resolve, reject, h]

/-- Once the once gate is consumed, any further sequence of settlement
calls is a no-op on the state. -/
theorem applyOps_of_onceConsumed {T : Type} (p : PState T) (h : p.onceConsumed = true)
    (ops : List (SettleOp T)) : applyOps p ops = p := by
  induction ops with
  | nil => rfl
  | cons op rest ih =>
    show applyOps (applyOp p op) rest = p
    rw [applyOp_of_onceConsumed p h op, ih]

/-- The first settlement call on a fresh promise consumes the gate. -/
theorem applyOp_initial_onceConsumed {T : Type} (op : SettleOp T) :
    (applyOp (PState.initial T) op).onceConsumed = true := by
  cases op <;> simp [applyOp, resolve, reject, PState.initial]

/-- The first settlement call installs exactly its own result. -/
theorem readResult_applyOp_initial {T : Type} (op : SettleOp T) :
    readResult (applyOp (PState.initial T) op) = some (interp op) := by
  cases op <;> simp [applyOp, resolve, reject, PState.initial, readResult, interp]

/-- C1: across any sequence and interleaving of resolve and reject calls
on a promise, only the first call settles it: the state after the whole
sequence is the state after the first call alone, the stored result is
the first call's result, and every later `Await` (with the waiter's own
signal not fired) returns that first result — the value with a nil error
for a first resolve, the error with the zero value for a first reject. -/
theorem first_settlement_wins {T : Type} (op : SettleOp T) (ops : List (SettleOp T)) :
    applyOps (PState.initial T) (op :: ops) = applyOp (PState.initial T) op ∧
    readResult (applyOps (PState.initial T) (op :: ops)) = some (interp op) ∧
    (∀ v, op = .res v → ∀ (zero : T) (ctxErr : GoError) (pick : Bool),
      await (applyOps (PState.initial T) (op :: ops)) zero false ctxErr pick = .ret v none) ∧
    (∀ e, op = .rej e → ∀ (zero : T) (ctxErr : GoError) (pick : Bool),
      await (applyOps (PState.initial T) (op :: ops)) zero false ctxErr pick =
        .ret zero (some e)) := by
  have hstep : applyOps (PState.initial T) (op :: ops) = applyOp (PState.initial T) op := by
    show applyOps (applyOp (PState.initial T) op) ops = applyOp (PState.initial T) op
    exact applyOps_of_onceConsumed _ (applyOp_initial_onceConsumed op) ops
  refine ⟨hstep, hstep ▸ readResult_applyOp_initial op, ?_, ?_⟩
  · rintro v rfl zero ctxErr pick
    rw [hstep]
    simp [applyOp, resolve, PState.initial, await]
  · rintro e rfl zero ctxErr pick
    rw [hstep]
    simp [applyOp, reject, PState.initial, await]

/-- Witness for C1 at a concrete interleaving: resolve then a late reject
and a late resolve; the stored result and the awaited result are the
first resolve's value. -/
theorem first_settlement_wins_witness :
    readResult (applyOps (PState.initial Nat)
      [.res 1, .rej (.errNew "late"), .res 2]) = some (.ok 1) ∧
    await (applyOps (PState.initial Nat)
      [.res 1, .rej (.errNew "late"), .res 2]) 0 false .ctxCanceled false = .ret 1 none :=
  ⟨(first_settlement_wins (.res 1) [.rej (.errNew "late"), .res 2]).2.1,
   (first_settlement_wins (.res 1) [.rej (.errNew "late"), .res 2]).2.2.1 1 rfl 0
     .ctxCanceled false⟩

/-- C4: when a task panics instead of settling its promise (the once gate
is still unconsumed when the deferred guard runs), `handlePanic` rejects
the promise: a structured error panic value becomes the rejection error
verbatim, any other panic value is wrapped by `fmt.Errorf("%v", v)`; a
subsequent `Await` returns the zero value with that non-nil error. -/
theorem panic_guard_rejects {T : Type} (p : PState T) (hp : p.onceConsumed = false)
    (pv : PanicValue) :
    (handlePanic p (some pv)).done = true ∧
    (handlePanic p (some pv)).err = some (panicToError pv) ∧
    (∀ e, pv = .asError e → (handlePanic p (some pv)).err = some e) ∧
    (∀ s, pv = .other s → (handlePanic p (some pv)).err = some (.fmtError s)) ∧
    (∀ (zero : T) (ctxErr : GoError) (pick : Bool),
      await (handlePanic p (some pv)) zero false ctxErr pick =
        .ret zero (some (panicToError pv))) := by
  refine ⟨?_, ?_, ?_, ?_, ?_⟩
  · simp [handlePanic, reject, hp]
  · simp [handlePanic, reject, hp]
  · rintro e rfl; simp [handlePanic, reject, hp, panicToError]
  · rintro s rfl; simp [handlePanic, reject, hp, panicToError]
  · intro zero ctxErr pick; simp [handlePanic, reject, hp, await]

/-- Witness for C4: a fresh promise whose task panicked with a plain
value; `Await` returns the synthesized `fmt.Errorf` failure. -/
theorem panic_guard_rejects_witness :
    (PState.initial Nat).onceConsumed = false ∧
    await (handlePanic (PState.initial Nat) (some (.other "boom"))) 0 false .ctxCanceled false =
      .ret 0 (some (.fmtError "boom")) :=
  ⟨rfl, (panic_guard_rejects (PState.initial Nat) rfl (.other "boom")).2.2.2.2 0
    .ctxCanceled false⟩

/-- C5: `Await` blocks exactly while the promise is unsettled and the
waiter's signal has not fired; a settled promise yields the stored value
with a nil error (resolved) or the zero value with the stored non-nil
error (rejected); a fired signal yields the zero value with the
cancellation error; and a waiter's departure leaves settlement
unaffected — a later first settlement call still installs its own
result. -/
theorem await_semantics {T : Type} (p : PState T) (zero : T) (ctxErr : GoError) :
    (∀ pick, await p zero false ctxErr pick = .blocked ↔ p.done = false) ∧
    (∀ v pick, p.done = true → p.err = none → p.value = some v →
      await p zero false ctxErr pick = .ret v none) ∧
    (∀ e pick, p.done = true → p.err = some e →
      await p zero false ctxErr pick = .ret zero (some e)) ∧
    (∀ pick, p.done = false → await p zero true ctxErr pick = .ret zero (some ctxErr)) ∧
    (p.onceConsumed = false → p.err = none →
      ∀ op, readResult (applyOp p op) = some (interp op)) := by
  refine ⟨?_, ?_, ?_, ?_, ?_⟩
  · intro pick
    cases hd : p.done with
    | false => simp [await, hd]
    | true =>
      simp only [await, hd]
      cases p.err with
      | some e => simp
      | none => cases p.value <;> simp
  · intro v pick hd he hv; simp [await, hd, he, hv]
  · intro e pick hd he; simp [await, hd, he]
  · intro pick hd; simp [await, hd]
  · intro ho he op
    cases op <;> simp [applyOp, resolve, reject, ho, he, readResult, interp]

/-- Witness for C5 at a resolved promise: `Await` with an unfired signal
returns the stored value and a nil error. -/
theorem await_semantics_witness :
    (resolve (PState.initial Nat) 7).done = true ∧
    (resolve (PState.initial Nat) 7).err = none ∧
    (resolve (PState.initial Nat) 7).value = some 7 ∧
    await (resolve (PState.initial Nat) 7) 0 false .ctxCanceled false = .ret 7 none :=
  ⟨by decide, by decide, by decide,
   (await_semantics (resolve (PState.initial Nat) 7) 0 .ctxCanceled).2.1 7 false
     (by decide) (by decide) (by decide)⟩

/-- The task body of `CatchWithPool` for a source observation `srcObs`
and handler `reject` (here `handler`): on a successful source, resolve
with the value; on a failed source, call `internalReject(handler e)`.
A nil handler result makes the inner `atomic.Value.Store(nil)` panic,
which escapes `once.Do` (consuming the gate without closing `done`) and
is caught by the deferred `handlePanic`, whose compensating reject then
finds the gate consumed. The deferred guard also runs (with a nil
`recover()`) on the non-panicking paths. -/
def catchRun {T : Type} (srcObs : Except GoError T) (handler : GoError → Option GoError) :
    PState T :=
  match srcObs with
  | .ok v => handlePanic (resolve (PState.initial T) v) none
  | .error e =>
    let st := reject (PState.initial T) (handler e)
    if st.2 then
      handlePanic st.1 (some (.other "sync/atomic: store of nil value into Value"))
    else handlePanic st.1 none

/-- C10: a `Catch` whose handler returns a nil error on a failed source
produces a promise that never settles: the nil store panics inside the
one-shot gate, consuming it without closing `done`; the recovery guard's
compensating reject is a no-op; every further settlement call is a
no-op; and every `Await` blocks until its own cancellation signal fires,
then returns the cancellation error. -/
theorem catch_nil_reject_never_settles {T : Type} (e : GoError)
    (handler : GoError → Option GoError) (hnil : handler e = none) :
    (catchRun (T := T) (.error e) handler).done = false ∧
    (catchRun (T := T) (.error e) handler).onceConsumed = true ∧
    (catchRun (T := T) (.error e) handler).value = none ∧
    (catchRun (T := T) (.error e) handler).err = none ∧
    (∀ ops, applyOps (catchRun (T := T) (.error e) handler) ops =
      catchRun (T := T) (.error e) handler) ∧
    (∀ (zero : T) (ctxErr : GoError) (pick : Bool),
      await (catchRun (T := T) (.error e) handler) zero false ctxErr pick = .blocked) ∧
    (∀ (zero : T) (ctxErr : GoError) (pick : Bool),
      await (catchRun (T := T) (.error e) handler) zero true ctxErr pick =
        .ret zero (some ctxErr)) := by
  have hc : catchRun (T := T) (.error e) handler =
      { value := none, err := none, done := false, onceConsumed := true } := by
    simp [catchRun, hnil, reject, PState.initial, handlePanic]
  refine ⟨by rw [hc], by rw [hc], by rw [hc], by rw [hc], ?_, ?_, ?_⟩
  · intro ops
    exact applyOps_of_onceConsumed _ (by rw [hc]) ops
  · intro zero ctxErr pick; rw [hc]; simp [await]
  · intro zero ctxErr pick; rw [hc]; simp [await]

/-- Witness for C10: a handler that always returns nil, on a source that
failed with a concrete error; the resulting promise is pending forever
and `Await` blocks. -/
theorem catch_nil_reject_never_settles_witness :
    (fun _ : GoError => (none : Option GoError)) (.errNew "boom") = none ∧
    (catchRun (T := Nat) (.error (.errNew "boom")) (fun _ => none)).done = false ∧
    await (catchRun (T := Nat) (.error (.errNew "boom")) (fun _ => none)) 0 false
      .ctxCanceled false = .blocked :=
  ⟨rfl,
   (catch_nil_reject_never_settles (T := Nat) (.errNew "boom") (fun _ => none) rfl).1,
   (catch_nil_reject_never_settles (T := Nat) (.errNew "boom") (fun _ => none) rfl).2.2.2.2.2.1
     0 .ctxCanceled false⟩

/-- One waiter of `AllWithPool` running to completion, for input index
`j`: it awaits input `j` (the observation `obs[j]`, which is either that
input's settlement or the shared context's cancellation error); on an
error it rejects the aggregate, on a value it writes `results[j]`. The
state is the aggregate's settlement state paired with the `results`
array. An out-of-range index has no waiter and changes nothing. -/
def allStep {T : Type} (obs : List (Except GoError T))
    (st : PState (List T) × List T) (j : Nat) : PState (List T) × List T :=
  match obs[j]? with
  | some (.ok v) => (st.1, st.2.set j v)
  | some (.error e) => ((reject st.1 (some e)).1, st.2)
  | none => st

/-- The task body of `AllWithPool` over a non-deterministic completion
order of its waiters: `results := make([]T, n)` (all `zero`), the waiters
run in the order given, `wg.Wait()` ends, and `resolve(results)` is
attempted. -/
def runAll {T : Type} (zero : T) (obs : List (Except GoError T)) (order : List Nat) :
    PState (List T) :=
  resolve
    (order.foldl (allStep obs) (PState.initial (List T), List.replicate obs.length zero)).1
    (order.foldl (allStep obs) (PState.initial (List T), List.replicate obs.length zero)).2

/-- When every observation is a value, no waiter touches the aggregate's
settlement state. -/
theorem allFold_fst_of_ok {T : Type} (obs : List (Except GoError T))
    (hok : ∀ ob ∈ obs, ∃ v, ob = Except.ok v) :
    ∀ (order : List Nat) (p : PState (List T)) (arr : List T),
      (order.foldl (allStep obs) (p, arr)).1 = p := by
  intro order
  induction order with
  | nil => intro p arr; rfl
  | cons j rest ih =>
    intro p arr
    show (rest.foldl (allStep obs) (allStep obs (p, arr) j)).1 = p
    cases hj : obs[j]? with
    | none => simpa [allStep, hj] using ih p arr
    | some ob =>
      obtain ⟨v, rfl⟩ := hok ob (List.getElem?_mem hj)
      simpa [allStep, hj] using ih p (arr.set j v)

/-- The waiters never change the length of the results array. -/
theorem allFold_length {T : Type} (obs : List (Except GoError T)) :
    ∀ (order : List Nat) (p : PState (List T)) (arr : List T),
      (order.foldl (allStep obs) (p, arr)).2.length = arr.length := by
  intro order
  induction order with
  | nil => intro p arr; rfl
  | cons j rest ih =>
    intro p arr
    show (rest.foldl (allStep obs) (allStep obs (p, arr) j)).2.length = arr.length
    cases hj : obs[j]? with
    | none => simpa [allStep, hj] using ih p arr
    | some ob =>
      cases ob with
      | ok v =>
        have := ih p (arr.set j v)
        simpa [allStep, hj, List.length_set] using this
      | error e => simpa [allStep, hj] using ih (reject p (some e)).1 arr

/-- Slot `i` of the results array ends up holding the value of input `i`
as soon as waiter `i` has run (or the slot already holds it): every write
to slot `i` writes that same value. -/
theorem allFold_get_of_ok {T : Type} (obs : List (Except GoError T)) (i : Nat) (v : T)
    (hv : obs[i]? = some (.ok v)) :
    ∀ (order : List Nat) (p : PState (List T)) (arr : List T), arr.length = obs.length →
      (i ∈ order ∨ arr[i]? = some v) →
      (order.foldl (allStep obs) (p, arr)).2[i]? = some v := by
  intro order
  induction order with
  | nil =>
    intro p arr _ hin
    rcases hin with hin | hin
    · exact absurd hin (List.not_mem_nil i)
    · exact hin
  | cons j rest ih =>
    intro p arr hlen hin
    show (rest.foldl (allStep obs) (allStep obs (p, arr) j)).2[i]? = some v
    cases hj : obs[j]? with
    | none =>
      have hstep : allStep obs (p, arr) j = (p, arr) := by simp [allStep, hj]
      rw [hstep]
      apply ih p arr hlen
      rcases hin with hin | hin
      · rcases List.mem_cons.mp hin with rfl | hin
        · rw [hj] at hv; exact absurd hv (by simp)
        · exact Or.inl hin
      · exact Or.inr hin
    | some ob =>
      cases ob with
      | error e =>
        have hstep : allStep obs (p, arr) j = ((reject p (some e)).1, arr) := by
          simp [allStep, hj]
        rw [hstep]
        apply ih (reject p (some e)).1 arr hlen
        rcases hin with hin | hin
        · rcases List.mem_cons.mp hin with rfl | hin
          · rw [hj] at hv; exact absurd hv (by simp)
          · exact Or.inl hin
        · exact Or.inr hin
      | ok w =>
        have hstep : allStep obs (p, arr) j = (p, arr.set j w) := by simp [allStep, hj]
        rw [hstep]
        apply ih p (arr.set j w) (by rw [List.length_set]; exact hlen)
        by_cases hij : i = j
        · subst hij
          rw [hj] at hv
          have hw : w = v := by simpa using hv
          subst hw
          have hi : i < arr.length := by
            rw [hlen]; exact (List.getElem?_eq_some.mp hj).1
          exact Or.inr (List.getElem?_set_self hi)
        · rcases hin with hin | hin
          · rcases List.mem_cons.mp hin with rfl | hin
            · exact absurd rfl hij
            · exact Or.inl hin
          · exact Or.inr (by rw [List.getElem?_set_ne (fun h => hij h.symm)]; exact hin)

/-- C2: when every input of a (non-empty) `All` resolves, the aggregate
resolves — whatever the completion order of the waiters (any permutation
of the input indices) — with a results list of the same length in which
slot `i` holds the value of input `i`. -/
theorem all_resolves_in_order {T : Type} (zero : T) (obs : List (Except GoError T))
    (order : List Nat) (_hne : obs ≠ [])
    (hok : ∀ ob ∈ obs, ∃ v, ob = Except.ok v)
    (hperm : order.Perm (List.range obs.length)) :
    (runAll zero obs order).done = true ∧
    (runAll zero obs order).err = none ∧
    ∃ results : List T, (runAll zero obs order).value = some results ∧
      results.length = obs.length ∧
      ∀ (i : Nat) (v : T), obs[i]? = some (Except.ok v) → results[i]? = some v := by
  have hfst := allFold_fst_of_ok obs hok order (PState.initial (List T))
    (List.replicate obs.length zero)
  have hres : runAll zero obs order =
      { value := some (order.foldl (allStep obs)
          (PState.initial (List T), List.replicate obs.length zero)).2,
        err := none, done := true, onceConsumed := true } := by
    unfold runAll
    rw [hfst]
    simp [resolve, PState.initial]
  refine ⟨by rw [hres], by rw [hres], ?_⟩
  refine ⟨(order.foldl (allStep obs)
    (PState.initial (List T), List.replicate obs.length zero)).2, by rw [hres], ?_, ?_⟩
  · rw [allFold_length]; exact List.length_replicate obs.length zero
  · intro i v hv
    apply allFold_get_of_ok obs i v hv order _ _ (List.length_replicate obs.length zero)
    exact Or.inl (hperm.mem_iff.mpr
      (List.mem_range.mpr (List.getElem?_eq_some.mp hv).1))

/-- Witness for C2: three resolved inputs observed out of order still
aggregate to the values in input order. -/
theorem all_resolves_in_order_witness :
    (runAll 0 ([.ok 10, .ok 20, .ok 30] : List (Except GoError Nat)) [2, 0, 1]).done = true ∧
    ∃ results : List Nat,
      (runAll 0 ([.ok 10, .ok 20, .ok 30] : List (Except GoError Nat)) [2, 0, 1]).value =
        some results ∧ results.length = 3 ∧
      ∀ (i v : Nat),
        ([.ok 10, .ok 20, .ok 30] : List (Except GoError Nat))[i]? = some (Except.ok v) →
        results[i]? = some v :=
  ⟨(all_resolves_in_order 0 _ [2, 0, 1] (by simp)
      (by intro ob hob; simp at hob; rcases hob with rfl | rfl | rfl <;> exact ⟨_, rfl⟩)
      (by decide)).1,
   (all_resolves_in_order 0 _ [2, 0, 1] (by simp)
      (by intro ob hob; simp at hob; rcases hob with rfl | rfl | rfl <;> exact ⟨_, rfl⟩)
      (by decide)).2.2⟩

/-- Waiters whose observations are all values (or that do not exist)
leave the aggregate's settlement state alone. -/
theorem allFold_fst_of_no_error {T : Type} (obs : List (Except GoError T)) :
    ∀ (pre : List Nat) (p : PState (List T)) (arr : List T),
      (∀ k ∈ pre, ∀ e0, obs[k]? ≠ some (Except.error e0)) →
      (pre.foldl (allStep obs) (p, arr)).1 = p := by
  intro pre
  induction pre with
  | nil => intro p arr _; rfl
  | cons j rest ih =>
    intro p arr hpre
    show (rest.foldl (allStep obs) (allStep obs (p, arr) j)).1 = p
    have hrest : ∀ k ∈ rest, ∀ e0, obs[k]? ≠ some (Except.error e0) :=
      fun k hk => hpre k (List.mem_cons_of_mem j hk)
    cases hj : obs[j]? with
    | none => simpa [allStep, hj] using ih p arr hrest
    | some ob =>
      cases ob with
      | ok v => simpa [allStep, hj] using ih p (arr.set j v) hrest
      | error e => exact absurd hj (hpre j (List.mem_cons_self j rest) e)

/-- Once the aggregate's one-shot gate is consumed, no later waiter
changes its settlement state. -/
theorem allFold_fst_of_onceConsumed {T : Type} (obs : List (Except GoError T)) :
    ∀ (order : List Nat) (p : PState (List T)) (arr : List T), p.onceConsumed = true →
      (order.foldl (allStep obs) (p, arr)).1 = p := by
  intro order
  induction order with
  | nil => intro p arr _; rfl
  | cons j rest ih =>
    intro p arr hp
    show (rest.foldl (allStep obs) (allStep obs (p, arr) j)).1 = p
    cases hj : obs[j]? with
    | none => simpa [allStep, hj] using ih p arr hp
    | some ob =>
      cases ob with
      | ok v => simpa [allStep, hj] using ih p (arr.set j v) hp
      | error e =>
        have hr : (reject p (some e)).1 = p := by simp [reject, hp]
        simpa [allStep, hj, hr] using ih p arr hp

/-- C3: when some input of `All` is observed to fail — with the input's
own rejection error or with the governing context's cancellation
error — the aggregate rejects with the error of the first observed
rejection, and it is already settled the moment that waiter runs, before
the remaining waiters (`post`) have settled; `Await` on the aggregate
then returns the nil results slice together with that non-nil error. -/
theorem all_rejects_fail_fast {T : Type} (zero : T) (obs : List (Except GoError T))
    (pre post : List Nat) (j : Nat) (e : GoError)
    (hpre : ∀ k ∈ pre, ∀ e0, obs[k]? ≠ some (Except.error e0))
    (herr : obs[j]? = some (Except.error e)) :
    ((pre ++ [j]).foldl (allStep obs)
        (PState.initial (List T), List.replicate obs.length zero)).1.done = true ∧
    ((pre ++ [j]).foldl (allStep obs)
        (PState.initial (List T), List.replicate obs.length zero)).1.err = some e ∧
    readResult (runAll zero obs (pre ++ j :: post)) = some (.error e) ∧
    (∀ (ctxErr : GoError) (pick : Bool),
      await (runAll zero obs (pre ++ j :: post)) [] false ctxErr pick =
        .ret [] (some e)) := by
  have hq := allFold_fst_of_no_error obs pre (PState.initial (List T))
    (List.replicate obs.length zero) hpre
  have hmid : ((pre ++ [j]).foldl (allStep obs)
      (PState.initial (List T), List.replicate obs.length zero)).1 =
      (reject (PState.initial (List T)) (some e)).1 := by
    rw [List.foldl_append, List.foldl_cons, List.foldl_nil]
    have hstep : allStep obs
        (pre.foldl (allStep obs) (PState.initial (List T), List.replicate obs.length zero)) j =
        ((reject (pre.foldl (allStep obs)
            (PState.initial (List T), List.replicate obs.length zero)).1 (some e)).1,
          (pre.foldl (allStep obs)
            (PState.initial (List T), List.replicate obs.length zero)).2) := by
      simp [allStep, herr]
    rw [hstep, hq]
  have hR : (reject (PState.initial (List T)) (some e)).1 =
      { value := none, err := some e, done := true, onceConsumed := true } := by
    simp [reject, PState.initial]
  have hfull : runAll zero obs (pre ++ j :: post) =
      (reject (PState.initial (List T)) (some e)).1 := by
    unfold runAll
    have hsplit : pre ++ j :: post = (pre ++ [j]) ++ post := by
      rw [List.append_assoc]; rfl
    rw [hsplit, List.foldl_append]
    have hpost : (post.foldl (allStep obs) ((pre ++ [j]).foldl (allStep obs)
        (PState.initial (List T), List.replicate obs.length zero))).1 =
        ((pre ++ [j]).foldl (allStep obs)
          (PState.initial (List T), List.replicate obs.length zero)).1 :=
      allFold_fst_of_onceConsumed obs post _ _ (by rw [hmid, hR])
    rw [hpost, hmid]
    simp [resolve, hR]
  refine ⟨by rw [hmid, hR], by rw [hmid, hR], by rw [hfull, hR]; simp [readResult], ?_⟩
  intro ctxErr pick
  rw [hfull, hR]
  simp [await]

/-- Witness for C3: inputs observed in the order third, second, first;
the second input's rejection settles the aggregate before the first
input's waiter runs, and `Await` yields the nil slice and that error. -/
theorem all_rejects_fail_fast_witness :
    (([.ok 1, .error (.errNew "bad"), .ok 3] : List (Except GoError Nat))[1]? =
      some (Except.error (.errNew "bad"))) ∧
    (([2] ++ [1]).foldl (allStep ([.ok 1, .error (.errNew "bad"), .ok 3] :
        List (Except GoError Nat)))
      (PState.initial (List Nat), List.replicate 3 0)).1.done = true ∧
    readResult (runAll 0 ([.ok 1, .error (.errNew "bad"), .ok 3] : List (Except GoError Nat))
      ([2] ++ 1 :: [0])) = some (.error (.errNew "bad")) ∧
    await (runAll 0 ([.ok 1, .error (.errNew "bad"), .ok 3] : List (Except GoError Nat))
      ([2] ++ 1 :: [0])) [] false .ctxCanceled false = .ret [] (some (.errNew "bad")) := by
  have hpre : ∀ k ∈ [2], ∀ e0,
      ([.ok 1, .error (.errNew "bad"), .ok 3] : List (Except GoError Nat))[k]? ≠
        some (Except.error e0) := by
    intro k hk e0
    rcases List.mem_singleton.mp hk with rfl
    simp
  have h := all_rejects_fail_fast 0
    ([.ok 1, .error (.errNew "bad"), .ok 3] : List (Except GoError Nat))
    [2] [0] 1 (.errNew "bad") hpre rfl
  exact ⟨rfl, h.1, h.2.2.1, h.2.2.2 .ctxCanceled false⟩

/-- Construction outcome of a combinator entry point: a value, or a Go
panic with the given message. -/
inductive Constructed (A : Type) where
  | made (a : A)
  | panicked (msg : String)
deriving DecidableEq, Repr

/-- The construction-time argument check of `AllWithPool`:
`if len(promises) == 0 { panic("missing promises") }`, then the aggregate
promise is created in its initial state. -/
def allConstruct {P : Type} (T : Type) (promises : List P) : Constructed (PState (List T)) :=
  if promises.length = 0 then .panicked "missing promises"
  else .made (PState.initial (List T))

/-- The construction-time behavior of `Race`: no argument check at all —
it goes straight to `NewWithPool` with a non-nil task and pool, so
construction always succeeds. -/
def raceConstruct {P : Type} (T : Type) (promises : List P) : Constructed (PState T) :=
  .made (PState.initial T)

/-- One waiter goroutine of `Race` running to completion for the
observation `ob` it got from awaiting its input: a value resolves the
race, an error rejects it, first one through the once gate wins. -/
def raceWaiter {T : Type} (p : PState T) (ob : Except GoError T) : PState T :=
  match ob with
  | .ok v => resolve p v
  | .error e => (reject p (some e)).1

/-- The task body of `Race`: its waiter goroutines settle the race in
their wall-clock completion order `completions` (a permutation of the
inputs' observations). With zero inputs the loop spawns nothing and the
task returns leaving the promise untouched. -/
def runRace {T : Type} (completions : List (Except GoError T)) : PState T :=
  completions.foldl raceWaiter (PState.initial T)

/-- The first race waiter consumes the once gate. -/
theorem raceWaiter_initial_onceConsumed {T : Type} (c : Except GoError T) :
    (raceWaiter (PState.initial T) c).onceConsumed = true := by
  cases c <;> simp [raceWaiter, resolve, reject, PState.initial]

/-- Once the race is settled, later waiters change nothing. -/
theorem raceFold_of_onceConsumed {T : Type} :
    ∀ (rest : List (Except GoError T)) (p : PState T), p.onceConsumed = true →
      rest.foldl raceWaiter p = p := by
  intro rest
  induction rest with
  | nil => intro p _; rfl
  | cons c cs ih =>
    intro p hp
    show cs.foldl raceWaiter (raceWaiter p c) = p
    have hc : raceWaiter p c = p := by
      cases c <;> simp [raceWaiter, resolve, reject, hp]
    rw [hc]
    exact ih p hp

/-- The first waiter through installs exactly its observation. -/
theorem readResult_raceWaiter_initial {T : Type} (c : Except GoError T) :
    readResult (raceWaiter (PState.initial T) c) = some c := by
  cases c <;> simp [raceWaiter, resolve, reject, PState.initial, readResult]

/-- C7: a `Race` over a non-empty set of inputs settles with the outcome
of whichever input settles first: the state after all waiters is the
state after the first one alone (the losers' outcomes are discarded, with
no cancellation applied to them), the stored result is the first
completion — which is the outcome of one of the inputs — and `Await`
returns its value with a nil error if it resolved, the zero value with
its error if it rejected. -/
theorem race_first_settlement {T : Type} (obs completions : List (Except GoError T))
    (c : Except GoError T) (rest : List (Except GoError T))
    (hperm : completions.Perm obs) (hc : completions = c :: rest) :
    c ∈ obs ∧
    runRace completions = raceWaiter (PState.initial T) c ∧
    readResult (runRace completions) = some c ∧
    (∀ v, c = .ok v → ∀ (zero : T) (ctxErr : GoError) (pick : Bool),
      await (runRace completions) zero false ctxErr pick = .ret v none) ∧
    (∀ e, c = .error e → ∀ (zero : T) (ctxErr : GoError) (pick : Bool),
      await (runRace completions) zero false ctxErr pick = .ret zero (some e)) := by
  subst hc
  have hrun : runRace (c :: rest) = raceWaiter (PState.initial T) c := by
    show rest.foldl raceWaiter (raceWaiter (PState.initial T) c) =
      raceWaiter (PState.initial T) c
    exact raceFold_of_onceConsumed rest _ (raceWaiter_initial_onceConsumed c)
  refine ⟨hperm.mem_iff.mp (List.mem_cons_self c rest), hrun,
    hrun ▸ readResult_raceWaiter_initial c, ?_, ?_⟩
  · rintro v rfl zero ctxErr pick
    rw [hrun]
    simp [raceWaiter, resolve, PState.initial, await]
  · rintro e rfl zero ctxErr pick
    rw [hrun]
    simp [raceWaiter, reject, PState.initial, await]

/-- Witness for C7: the fastest input rejects; the race rejects with its
error even though a slower input would have resolved. -/
theorem race_first_settlement_witness :
    ([Except.error (GoError.errNew "fast error"), Except.ok 9] :
        List (Except GoError Nat)).Perm
      [Except.error (GoError.errNew "fast error"), Except.ok 9] ∧
    readResult (runRace ([.error (.errNew "fast error"), .ok 9] :
      List (Except GoError Nat))) = some (.error (.errNew "fast error")) ∧
    await (runRace ([.error (.errNew "fast error"), .ok 9] : List (Except GoError Nat)))
      0 false .ctxCanceled false = .ret 0 (some (.errNew "fast error")) :=
  ⟨List.Perm.refl _,
   (race_first_settlement _ _ (.error (.errNew "fast error")) [.ok 9]
      (List.Perm.refl _) rfl).2.2.1,
   (race_first_settlement _ _ (.error (.errNew "fast error")) [.ok 9]
      (List.Perm.refl _) rfl).2.2.2.2 (.errNew "fast error") rfl 0 .ctxCanceled false⟩

/-- C6 as stated is false for `Race`: constructing `Race` with zero input
promises does not fail at construction — it succeeds, and the returned
promise is permanently pending (its task spawns no waiter, so `done`
never closes and `Await` with an unfired signal blocks). -/
theorem race_empty_returns_pending_promise :
    raceConstruct Nat ([] : List Unit) = .made (PState.initial Nat) ∧
    (runRace ([] : List (Except GoError Nat))).done = false ∧
    await (runRace ([] : List (Except GoError Nat))) 0 false .ctxCanceled false =
      .blocked := by
  refine ⟨rfl, rfl, ?_⟩
  simp [runRace, PState.initial, await]

/-- C6 amended: `All` with zero input promises panics at construction
with "missing promises"; `Race` performs no such check — with zero
inputs it constructs successfully and returns a permanently-pending
promise whose `Await` blocks until the waiter's own signal fires. -/
theorem empty_construction_check (T : Type) :
    allConstruct (P := PState Unit) T [] = .panicked "missing promises" ∧
    (∀ promises : List (PState Unit), raceConstruct T promises = .made (PState.initial T)) ∧
    (runRace ([] : List (Except GoError T))).done = false ∧
    (∀ (zero : T) (ctxErr : GoError) (pick : Bool),
      await (runRace ([] : List (Except GoError T))) zero false ctxErr pick = .blocked) ∧
    (∀ (zero : T) (ctxErr : GoError) (pick : Bool),
      await (runRace ([] : List (Except GoError T))) zero true ctxErr pick =
        .ret zero (some ctxErr)) := by
  refine ⟨rfl, fun _ => rfl, rfl, ?_, ?_⟩
  · intro zero ctxErr pick; simp [runRace, PState.initial, await]
  · intro zero ctxErr pick; simp [runRace, PState.initial, await]

/-- The task body of `ThenWithPool` for the observation `srcObs` its
`Await` of the source returns and the transform `resolve` (here
`transform`, returning Go's `(B, error)` pair): a failed source is
re-rejected without calling the transform; a successful source has the
transform applied, rejecting on its non-nil error and resolving with its
value otherwise. The second component counts transform invocations; the
deferred panic guard runs (with a nil `recover()`) on every path. -/
def thenRun {A B : Type} (srcObs : Except GoError A) (transform : A → B × Option GoError) :
    PState B × Nat :=
  match srcObs with
  | .error e => (handlePanic (reject (PState.initial B) (some e)).1 none, 0)
  | .ok a =>
    match transform a with
    | (_, some e) => (handlePanic (reject (PState.initial B) (some e)).1 none, 1)
    | (b, none) => (handlePanic (resolve (PState.initial B) b) none, 1)

/-- C8: `Then` on a rejected source never invokes the transform and
propagates the source's error unchanged; on a resolved source it invokes
the transform exactly once, resolving with the transform's value when
the transform returns a nil error and rejecting with the transform's
error otherwise. -/
theorem then_semantics {A B : Type} (e : GoError) (a : A)
    (transform : A → B × Option GoError) :
    (thenRun (.error e) transform).2 = 0 ∧
    readResult (thenRun (.error e) transform).1 = some (.error e) ∧
    (thenRun (.ok a) transform).2 = 1 ∧
    (∀ b, transform a = (b, none) →
      readResult (thenRun (.ok a) transform).1 = some (.ok b)) ∧
    (∀ b e2, transform a = (b, some e2) →
      readResult (thenRun (.ok a) transform).1 = some (.error e2)) := by
  refine ⟨rfl, ?_, ?_, ?_, ?_⟩
  · simp [thenRun, handlePanic, reject, PState.initial, readResult]
  · simp only [thenRun]
    rcases h : transform a with ⟨b, e?⟩
    cases e? <;> rfl
  · intro b hb
    simp [thenRun, hb, handlePanic, resolve, PState.initial, readResult]
  · intro b e2 hb
    simp [thenRun, hb, handlePanic, reject, PState.initial, readResult]

/-- Witness for C8: a transform that maps a number to twice it;
chained on a resolved source it resolves with the transformed value. -/
theorem then_semantics_witness :
    ((fun n : Nat => (2 * n, (none : Option GoError))) 21 = (42, none)) ∧
    (thenRun (.error (.errNew "src")) (fun n : Nat => (2 * n, (none : Option GoError)))).2
      = 0 ∧
    readResult (thenRun (.ok 21) (fun n : Nat => (2 * n, (none : Option GoError)))).1 =
      some (.ok 42) :=
  ⟨rfl,
   (then_semantics (.errNew "src") 21 (fun n : Nat => (2 * n, (none : Option GoError)))).1,
   (then_semantics (.errNew "src") 21
      (fun n : Nat => (2 * n, (none : Option GoError)))).2.2.2.1 42 rfl⟩

/-- The task body of `Timeout` for a source in settlement state `src`:
it awaits the source under a context carrying deadline `d`
(`deadlineFired` says whether that deadline's signal is ready, in which
case `ctx.Err()` is `context.DeadlineExceeded`; `pick` breaks the
`select` tie), then resolves with the awaited value or rejects with the
awaited error. A blocked `Await` means the task has not returned and the
new promise is still in its initial state; the impossible fault path
would be caught by the deferred panic guard. -/
def timeoutRun {T : Type} (src : PState T) (zero : T) (deadlineFired : Bool)
    (pick : Bool) : PState T :=
  match await src zero deadlineFired .ctxDeadlineExceeded pick with
  | .ret v none => handlePanic (resolve (PState.initial T) v) none
  | .ret _ (some e) => handlePanic (reject (PState.initial T) (some e)).1 none
  | .blocked => PState.initial T
  | .fault => handlePanic (PState.initial T)
      (some (.other "interface conversion: interface is nil"))

/-- C9: if the source settles within the bound (its `done` closes while
the deadline signal is still unfired), `Timeout` resolves with the
source's resolved value (and propagates a source rejection's error); if
the bound elapses first (deadline fired while the source is pending),
`Timeout` rejects with the deadline-exceeded cancellation failure, and
`Await` on it returns that non-nil error. The source's own state is only
read, never settled, by the timeout task. -/
theorem timeout_semantics {T : Type} (src : PState T) (zero : T) (pick : Bool) :
    (∀ v, src.done = true → src.err = none → src.value = some v →
      readResult (timeoutRun src zero false pick) = some (.ok v)) ∧
    (∀ e, src.done = true → src.err = some e →
      readResult (timeoutRun src zero false pick) = some (.error e)) ∧
    (src.done = false →
      readResult (timeoutRun src zero true pick) =
        some (.error .ctxDeadlineExceeded) ∧
      (∀ (ctxErr : GoError) (pick2 : Bool),
        await (timeoutRun src zero true pick) zero false ctxErr pick2 =
          .ret zero (some .ctxDeadlineExceeded))) := by
  refine ⟨?_, ?_, ?_⟩
  · intro v hd he hv
    have ha : await src zero false .ctxDeadlineExceeded pick = .ret v none := by
      simp [await, hd, he, hv]
    simp [timeoutRun, ha, handlePanic, resolve, PState.initial, readResult]
  · intro e hd he
    have ha : await src zero false .ctxDeadlineExceeded pick = .ret zero (some e) := by
      simp [await, hd, he]
    simp [timeoutRun, ha, handlePanic, reject, PState.initial, readResult]
  · intro hd
    have ha : await src zero true .ctxDeadlineExceeded pick =
        .ret zero (some .ctxDeadlineExceeded) := by
      simp [await, hd]
    constructor
    · simp [timeoutRun, ha, handlePanic, reject, PState.initial, readResult]
    · intro ctxErr pick2
      have ht : timeoutRun src zero true pick =
          { value := none, err := some .ctxDeadlineExceeded, done := true,
            onceConsumed := true } := by
        unfold timeoutRun
        rw [ha]
        simp [handlePanic, reject, PState.initial]
      rw [ht]
      simp [await]

/-- Witness for C9 in both directions: a source resolved before the
bound yields its value; a source still pending when the bound elapses
yields the deadline error. -/
theorem timeout_semantics_witness :
    (resolve (PState.initial Nat) 5).done = true ∧
    readResult (timeoutRun (resolve (PState.initial Nat) 5) 0 false false) =
      some (.ok 5) ∧
    (PState.initial Nat).done = false ∧
    readResult (timeoutRun (PState.initial Nat) 0 true false) =
      some (.error .ctxDeadlineExceeded) :=
  ⟨by decide,
   (timeout_semantics (resolve (PState.initial Nat) 5) 0 false).1 5
     (by decide) (by decide) (by decide),
   rfl,
   ((timeout_semantics (PState.initial Nat) 0 false).2.2 rfl).1⟩

end Promise4g
